import Mathlib

/-!
Shallow embedding of the Editor Service subsystem of the `healcode` repository
(`src/editor/`): the request/result data model (`src/editor/interfaces.py`),
the line / pattern / AST editing strategies
(`src/editor/strategies/line_editor.py`, `pattern_editor.py`, `ast_editor.py`),
the backup manager and the orchestrating service (`src/editor/service.py`).

File contents are modelled as `List Char`; the filesystem as an association
list from path to a record of content and modification time; the wall clock as
a natural number that ticks forward at every `time.time()` call and at every
file write.  Fallible Python code is modelled with `Except String`
(a raised exception is the `.error` case carrying the exception message).
-/

namespace HealCode

/-! ## Python `str.splitlines` (used by `LineEditor._edit_lines`) -/

/-- The line-boundary characters of Python `str.splitlines`:
`\n`, `\r` (with `\r\n` counted as a single boundary), `\v`, `\f`,
the file/group/record separators, `\x85`, and the Unicode line and
paragraph separators. -/
def isLineBoundary (c : Char) : Bool :=
  c = '\n' || c = '\r' || c = '\x0b' || c = '\x0c' ||
  c = '\x1c' || c = '\x1d' || c = '\x1e' || c = '\x85' ||
  c = ' ' || c = ' '

/-- Worker for `pySplitlines`: scans one character at a time.  `crPending`
records that the previous character was a `\r` that already closed a line (so
an immediately following `\n` is part of the same `\r\n` boundary and is
skipped); `acc` is the current partial line, in reverse. -/
def pySLGo (crPending : Bool) (acc : List Char) : List Char → List (List Char)
  | [] => if acc = [] then [] else [acc.reverse]
  | c :: rest =>
    if crPending ∧ c = '\n' then
      pySLGo false acc rest
    else if c = '\r' then
      acc.reverse :: pySLGo true [] rest
    else if isLineBoundary c then
      acc.reverse :: pySLGo false [] rest
    else
      pySLGo false (c :: acc) rest

/-- Python `content.splitlines()`: split at line boundaries, `\r\n` counting
as one boundary; a trailing boundary does not open a final empty line. -/
def pySplitlines (cs : List Char) : List (List Char) :=
  pySLGo false [] cs

theorem pySplitlines_nil : pySplitlines [] = [] := rfl

theorem pySLGo_ne_nil (cs : List Char) (acc : List Char) (h : cs ≠ []) :
    pySLGo false acc cs ≠ [] := by
  induction cs generalizing acc with
  | nil => exact absurd rfl h
  | cons c rest ih =>
    rw [pySLGo]
    simp only [Bool.false_eq_true, false_and, if_false]
    split
    · simp
    · split
      · simp
      · rcases eq_or_ne rest [] with rfl | hne
        · rw [pySLGo]
          simp
        · exact ih (c :: acc) hne

theorem pySplitlines_ne_nil (cs : List Char) (h : cs ≠ []) :
    pySplitlines cs ≠ [] :=
  pySLGo_ne_nil cs [] h

theorem pySLGo_append_newline (l : List Char) (acc r : List Char)
    (h : ∀ c ∈ l, isLineBoundary c = false) :
    pySLGo false acc (l ++ '\n' :: r) =
      (acc.reverse ++ l) :: pySLGo false [] r := by
  induction l generalizing acc with
  | nil =>
    rw [List.nil_append, pySLGo]
    simp [isLineBoundary]
  | cons c l ih =>
    have hc : isLineBoundary c = false := h c (List.mem_cons_self c l)
    have hcr : c ≠ '\r' := by
      rintro rfl
      simp [isLineBoundary] at hc
    rw [List.cons_append, pySLGo]
    simp only [false_and, if_false, if_neg hcr, hc, Bool.false_eq_true, if_false]
    rw [ih (c :: acc) (fun c hc => h c (List.mem_cons_of_mem _ hc))]
    simp

/-- Splitting a boundary-free line followed by a newline peels off that line. -/
theorem pySplitlines_append_newline (l r : List Char)
    (h : ∀ c ∈ l, isLineBoundary c = false) :
    pySplitlines (l ++ '\n' :: r) = l :: pySplitlines r := by
  unfold pySplitlines
  rw [pySLGo_append_newline l [] r h]
  rfl

theorem pySLGo_no_boundary (l : List Char) (acc : List Char) (hne : l ≠ [])
    (h : ∀ c ∈ l, isLineBoundary c = false) :
    pySLGo false acc l = [acc.reverse ++ l] := by
  induction l generalizing acc with
  | nil => exact absurd rfl hne
  | cons c l ih =>
    have hc : isLineBoundary c = false := h c (List.mem_cons_self c l)
    have hcr : c ≠ '\r' := by
      rintro rfl
      simp [isLineBoundary] at hc
    rw [pySLGo]
    simp only [false_and, if_false, if_neg hcr, hc, Bool.false_eq_true, if_false]
    rcases eq_or_ne l [] with rfl | hl
    · rw [pySLGo]
      simp
    · rw [ih (c :: acc) hl (fun c hc => h c (List.mem_cons_of_mem _ hc))]
      simp

/-- A non-empty boundary-free string is a single line. -/
theorem pySplitlines_no_boundary (l : List Char) (hne : l ≠ [])
    (h : ∀ c ∈ l, isLineBoundary c = false) :
    pySplitlines l = [l] := by
  unfold pySplitlines
  rw [pySLGo_no_boundary l [] hne h]
  rfl

/-- Every line produced by `pySplitlines` is free of boundary characters. -/
theorem pySplitlines_no_boundary_mem (cs : List Char) :
    ∀ l ∈ pySplitlines cs, ∀ c ∈ l, isLineBoundary c = false := by
  suffices h : ∀ cs pending acc, (∀ c ∈ acc, isLineBoundary c = false) →
      ∀ l ∈ pySLGo pending acc cs, ∀ c ∈ l, isLineBoundary c = false by
    exact h cs false [] (by simp)
  intro cs
  induction cs with
  | nil =>
    intro pending acc hacc l hl c hc
    rw [pySLGo] at hl
    split at hl
    · simp at hl
    · rw [List.mem_singleton] at hl
      subst hl
      exact hacc c (List.mem_reverse.mp hc)
  | cons c0 rest ih =>
    intro pending acc hacc l hl c hc
    rw [pySLGo] at hl
    split at hl
    · exact ih false acc hacc l hl c hc
    · split at hl
      · rcases List.mem_cons.mp hl with rfl | hl
        · exact hacc c (List.mem_reverse.mp hc)
        · exact ih true [] (by simp) l hl c hc
      · split at hl
        · rcases List.mem_cons.mp hl with rfl | hl
          · exact hacc c (List.mem_reverse.mp hc)
          · exact ih false [] (by simp) l hl c hc
        · refine ih false (c0 :: acc) ?_ l hl c hc
          intro c hcmem
          rcases List.mem_cons.mp hcmem with rfl | hcmem
          · rename_i hb
            simpa using hb
          · exact hacc c hcmem

theorem getLast?_cons_of_ne_nil {α : Type} (x : α) (l : List α) (h : l ≠ []) :
    (x :: l).getLast? = l.getLast? := by
  cases l with
  | nil => exact absurd rfl h
  | cons y ys => exact List.getLast?_cons_cons

/-- A string whose only boundary character is `\n` and which does not end in
`\n` splits into lines the last of which is non-empty. -/
theorem pySplitlines_getLast_ne_nil (cs : List Char)
    (hlf : ∀ c ∈ cs, isLineBoundary c = true → c = '\n')
    (hend : cs.getLast? ≠ some '\n') :
    (pySplitlines cs).getLast? ≠ some ([] : List Char) := by
  suffices h : ∀ cs acc, (∀ c ∈ cs, isLineBoundary c = true → c = '\n') →
      cs.getLast? ≠ some '\n' →
      (acc = [] → cs ≠ []) →
      (pySLGo false acc cs).getLast? ≠ some ([] : List Char) by
    rcases eq_or_ne cs [] with rfl | hne
    · simp [pySplitlines, pySLGo]
    · exact h cs [] hlf hend (fun _ => hne)
  intro cs
  induction cs with
  | nil =>
    intro acc hlf hend hacc
    rcases eq_or_ne acc [] with rfl | hne
    · exact absurd rfl (hacc rfl)
    · rw [pySLGo, if_neg hne]
      simpa using hne
  | cons c rest ih =>
    intro acc hlf hend hacc
    have hcr : c ≠ '\r' := by
      rintro rfl
      have := hlf '\r' (List.mem_cons_self _ _) (by decide)
      exact absurd this (by decide)
    rw [pySLGo]
    simp only [Bool.false_eq_true, false_and, if_false, if_neg hcr]
    by_cases hb : isLineBoundary c = true
    · have hcn : c = '\n' := hlf c (List.mem_cons_self _ _) hb
      subst hcn
      rw [if_pos hb]
      have hrest : rest ≠ [] := by
        rintro rfl
        exact hend (by simp)
      rw [getLast?_cons_of_ne_nil _ _ (pySLGo_ne_nil rest [] hrest)]
      exact ih [] (fun c hc => hlf c (List.mem_cons_of_mem _ hc))
        (by rwa [getLast?_cons_of_ne_nil _ _ hrest] at hend)
        (fun _ => hrest)
    · rw [if_neg hb]
      rcases eq_or_ne rest [] with rfl | hrest
      · rw [pySLGo]
        simp
      · exact ih (c :: acc) (fun c hc => hlf c (List.mem_cons_of_mem _ hc))
          (by rwa [getLast?_cons_of_ne_nil _ _ hrest] at hend)
          (by simp)

/-! ## Python `'\n'.join` (used by `LineEditor._edit_lines`) -/

/-- Python `'\n'.join(lines)`. -/
def pyJoinNL : List (List Char) → List Char
  | [] => []
  | [l] => l
  | l :: ls => l ++ '\n' :: pyJoinNL ls

theorem pyJoinNL_cons_cons (a b : List Char) (rest : List (List Char)) :
    pyJoinNL (a :: b :: rest) = a ++ '\n' :: pyJoinNL (b :: rest) := rfl

/-- Joining boundary-free lines and re-splitting is the identity, provided the
join is terminated coherently (a trailing newline unless the final line is
non-empty). -/
theorem pySplitlines_pyJoinNL (L : List (List Char)) (t : Bool)
    (hnb : ∀ l ∈ L, ∀ c ∈ l, isLineBoundary c = false)
    (hlast : t = false → L.getLast? ≠ some [])
    (hnil : L = [] → t = false) :
    pySplitlines (pyJoinNL L ++ (if t then ['\n'] else [])) = L := by
  induction L with
  | nil =>
    cases t with
    | false => simp [pyJoinNL, pySplitlines_nil]
    | true => exact Bool.noConfusion (hnil rfl)
  | cons a L ih =>
    cases L with
    | nil =>
      cases t with
      | true =>
        rw [if_pos rfl]
        show pySplitlines (a ++ '\n' :: []) = [a]
        rw [pySplitlines_append_newline a [] (hnb a (List.mem_singleton_self a)),
          pySplitlines_nil]
      | false =>
        have ha : a ≠ [] := by
          intro hcon
          exact (hlast rfl) (by simp [hcon])
        simp only [if_neg (by simp : ¬ (false = true)), List.append_nil]
        exact pySplitlines_no_boundary a ha (hnb a (List.mem_singleton_self a))
    | cons b rest =>
      rw [pyJoinNL_cons_cons, List.append_assoc, List.cons_append,
        pySplitlines_append_newline a _ (hnb a (List.mem_cons_self _ _)),
        ih (fun l hl => hnb l (List.mem_cons_of_mem _ hl))
          (fun ht => by rw [← getLast?_cons_of_ne_nil a (b :: rest) (by simp)]; exact hlast ht)
          (by simp)]

/-- Joining never yields the empty string when the lines are non-trivial. -/
theorem pyJoinNL_ne_nil (L : List (List Char)) (hne : L ≠ [])
    (hlast : L.getLast? ≠ some []) : pyJoinNL L ≠ [] := by
  cases L with
  | nil => exact absurd rfl hne
  | cons a L =>
    cases L with
    | nil =>
      have : a ≠ [] := fun hcon => hlast (by simp [hcon])
      simpa [pyJoinNL] using this
    | cons b rest => simp [pyJoinNL_cons_cons]

/-- A join of boundary-free lines whose final line is non-empty does not end
in a newline. -/
theorem pyJoinNL_getLast_not_newline (L : List (List Char))
    (hnb : ∀ l ∈ L, ∀ c ∈ l, isLineBoundary c = false)
    (hlast : L.getLast? ≠ some []) :
    (pyJoinNL L).getLast? ≠ some '\n' := by
  induction L with
  | nil => simp [pyJoinNL]
  | cons a L ih =>
    cases L with
    | nil =>
      show (pyJoinNL [a]).getLast? ≠ some '\n'
      intro hcon
      have hmem : '\n' ∈ a := List.mem_of_mem_getLast? (by simpa [pyJoinNL] using hcon)
      have := hnb a (List.mem_singleton_self a) '\n' hmem
      exact absurd this (by decide)
    | cons b rest =>
      rw [pyJoinNL_cons_cons]
      have hJ : pyJoinNL (b :: rest) ≠ [] :=
        pyJoinNL_ne_nil _ (by simp)
          (fun hcon => hlast (by rwa [getLast?_cons_of_ne_nil a _ (by simp)]))
      rw [List.getLast?_append]
      rw [getLast?_cons_of_ne_nil _ _ hJ]
      have ih' := ih (fun l hl => hnb l (List.mem_cons_of_mem _ hl))
        (fun hcon => hlast (by rwa [getLast?_cons_of_ne_nil a _ (by simp)]))
      obtain ⟨x, hx⟩ := Option.isSome_iff_exists.mp (List.getLast?_isSome.mpr hJ)
      rw [hx]
      intro hcon
      simp only [Option.or_some, Option.some.injEq] at hcon
      exact ih' (by rw [hx, hcon])

/-! ## `LineEditor._edit_lines` (src/editor/strategies/line_editor.py 84-126) -/

/-- Lookup in the dictionary built by Python `dict(zip(target_lines,
new_contents))`: when a key occurs twice, the later binding wins. -/
def pyDictLookup (m : List (Int × List Char)) (k : Int) : Option (List Char) :=
  m.reverse.lookup k

theorem pyDictLookup_single (n : Int) (C : List Char) (k : Int) :
    pyDictLookup [(n, C)] k = if k = n then some C else none := by
  by_cases h : k = n
  · simp [pyDictLookup, List.lookup, h]
  · have hb : (k == n) = false := beq_eq_false_iff_ne.mpr h
    simp [pyDictLookup, List.lookup, hb, h]

/-- The read-substitute-join core of `LineEditor._edit_lines`: split the file
into lines, substitute every 1-based line index that is a key of the edit map
(counting the substitutions), join with `\n`, and re-append a trailing newline
exactly when the original content ended with `\n`.  Returns the rewritten
content and `lines_changed`. -/
def editLinesCore (editMap : List (Int × List Char)) (content : List Char) :
    List Char × Nat :=
  let lines := pySplitlines content
  let modified := (List.enumFrom 1 lines).map
    (fun p => (pyDictLookup editMap (p.1 : Int)).getD p.2)
  let linesChanged := ((List.enumFrom 1 lines).filter
    (fun p => (pyDictLookup editMap (p.1 : Int)).isSome)).length
  let out := pyJoinNL modified ++
    (if content.getLast? = some '\n' then ['\n'] else [])
  (out, linesChanged)

theorem enumFrom_map_single (L : List (List Char)) (s : Nat) (n : Int)
    (C : List Char) :
    (List.enumFrom s L).map
      (fun p => (pyDictLookup [(n, C)] (p.1 : Int)).getD p.2) =
    if (s : Int) ≤ n ∧ n < (s : Int) + L.length then L.set (n - s).toNat C
    else L := by
  induction L generalizing s with
  | nil =>
    simp
  | cons a L ih =>
    rw [List.enumFrom_cons, List.map_cons, ih (s + 1)]
    simp only [pyDictLookup_single]
    by_cases hsn : ((s : Nat) : Int) = n
    · rw [if_pos hsn, Option.getD_some,
        if_neg (by push_cast; omega),
        if_pos ⟨le_of_eq hsn, by simp only [List.length_cons]; push_cast; omega⟩]
      have h0 : (n - s).toNat = 0 := by omega
      rw [h0, List.set_cons_zero]
    · rw [if_neg hsn, Option.getD_none]
      by_cases h2 : (s : Int) ≤ n ∧ n < (s : Int) + (a :: L).length
      · rw [if_pos (by simp only [List.length_cons] at h2 ⊢; push_cast at h2 ⊢; omega), if_pos h2]
        have hk : (n - s).toNat = (n - (s + 1)).toNat + 1 := by
          simp only [List.length_cons] at h2
          push_cast at h2
          omega
        rw [hk]
        push_cast
        rw [List.set_cons_succ]
      · rw [if_neg (by simp only [List.length_cons] at h2 ⊢; push_cast at h2 ⊢; omega), if_neg h2]

theorem enumFrom_count_single (L : List (List Char)) (s : Nat) (n : Int)
    (C : List Char) :
    ((List.enumFrom s L).filter
      (fun p => (pyDictLookup [(n, C)] (p.1 : Int)).isSome)).length =
    if (s : Int) ≤ n ∧ n < (s : Int) + L.length then 1 else 0 := by
  induction L generalizing s with
  | nil =>
    simp only [List.enumFrom_nil, List.filter_nil, List.length_nil,
      List.length_nil]
    rw [if_neg (by push_cast; omega)]
  | cons a L ih =>
    rw [List.enumFrom_cons, List.filter_cons]
    by_cases hsn : ((s : Nat) : Int) = n
    · rw [if_pos (by simp [pyDictLookup_single, hsn]),
        if_pos ⟨le_of_eq hsn, by simp only [List.length_cons]; push_cast; omega⟩]
      rw [List.length_cons, ih (s + 1), if_neg (by push_cast; omega)]
    · rw [if_neg (by simp [pyDictLookup_single, hsn]), ih (s + 1)]
      by_cases h2 : (s : Int) ≤ n ∧ n < (s : Int) + (a :: L).length
      · rw [if_pos (by simp only [List.length_cons] at h2; push_cast at h2 ⊢; omega), if_pos h2]
      · rw [if_neg (by simp only [List.length_cons] at h2 ⊢; push_cast at h2 ⊢; omega), if_neg h2]

/-! ## Data model (src/editor/interfaces.py) -/

/-- `EditOperationType` (interfaces.py 13-19). -/
inductive EditOperationType where
  | line
  | range
  | pattern
  | ast
  | append
deriving DecidableEq

/-- The polymorphic `EditRequest.target` field: an `int` line number, a
`(line_numbers, new_contents)` tuple for batch edits, a `list` of line
numbers, a `range`, a pattern `str`, or `None` for append. -/
inductive EditTarget where
  | intT (n : Int)
  | tupleT (lineNumbers : List Int) (contents : List (List Char))
  | listT (lineNumbers : List Int)
  | rangeT (start stop : Int)
  | strT (s : List Char)
  | noneT
deriving DecidableEq

/-- The `EditRequest.content` field is annotated `str`, but
`LineEditor._edit_lines` also inspects it for `list` (batch contents). -/
inductive EditContent where
  | strC (s : List Char)
  | listC (ls : List (List Char))
deriving DecidableEq

/-- Python truthiness of the content field (`not self.content`). -/
def contentIsEmpty : EditContent → Bool
  | .strC s => s.isEmpty
  | .listC ls => ls.isEmpty

/-- `EditOptions` (interfaces.py 22-30); the `encoding` field is not
modelled (contents are already decoded character lists), and the
syntax-validation flag is untouched by the code under study. -/
structure EditOptions where
  create_backup : Bool := true
  timeout_seconds : Nat := 30
  preserve_permissions : Bool := true
  atomic_operation : Bool := true
deriving DecidableEq

/-- `EditRequest` (interfaces.py 33-40). -/
structure EditRequest where
  file_path : String
  operation_type : EditOperationType
  target : EditTarget
  content : EditContent
  options : EditOptions := {}
deriving DecidableEq

/-- `EditRequest.__post_init__` (interfaces.py 42-70): construction-time
validation; a raised `ValueError` is the `.error` case. -/
def EditRequest.postInit (r : EditRequest) : Except String Unit :=
  if r.file_path = "" then
    .error "file_path cannot be empty"
  else
    match r.operation_type with
    | .line =>
      match r.target with
      | .tupleT lineNumbers newContents =>
        if lineNumbers.isEmpty || newContents.isEmpty ||
            lineNumbers.length ≠ newContents.length then
          .error "For batch edit, line_numbers and new_contents must be non-empty and same length"
        else
          .ok ()
      | .intT n =>
        if n < 1 then
          .error "Line number must be a positive integer"
        else if contentIsEmpty r.content then
          .error "content cannot be empty for non-pattern operations"
        else
          .ok ()
      | _ => .error "Line number must be a positive integer"
    | .range =>
      match r.target with
      | .rangeT _ _ =>
        if contentIsEmpty r.content then
          .error "content cannot be empty for non-pattern operations"
        else
          .ok ()
      | _ => .error "Range target must be a range object"
    | .pattern =>
      match r.target with
      | .strT _ => .ok ()
      | _ => .error "Pattern target must be a string"
    | .ast => .ok ()
    | .append =>
      match r.target with
      | .noneT =>
        if contentIsEmpty r.content then
          .error "content cannot be empty for append operation"
        else
          .ok ()
      | _ => .error "Append operation should not have a target"

/-! ## `LineEditor` dispatch and append
(src/editor/strategies/line_editor.py) -/

/-- The target/content dispatch at the top of `LineEditor._edit_lines`
(line_editor.py 86-93): an `int` target is wrapped into a singleton edit
map, a `list` target with `list` content is zipped into the edit map, and
anything else (including the `(line_numbers, new_contents)` tuple accepted
by `EditRequest.__post_init__`) raises `ValidationException`.  An `int`
target with `list` content has the list land in the edit map, where
`'\n'.join` then raises `TypeError`; that error is modelled directly (the
sub-case in which the target line does not exist is not modelled). -/
def editLinesDispatch (target : EditTarget) (content : EditContent)
    (fileContent : List Char) : Except String (List Char × Nat) :=
  match target, content with
  | .intT n, .strC c => .ok (editLinesCore [(n, c)] fileContent)
  | .listT lineNumbers, .listC newContents =>
    .ok (editLinesCore (lineNumbers.zip newContents) fileContent)
  | .intT _, .listC _ =>
    .error "sequence item 0: expected str instance, list found"
  | _, _ =>
    .error "For LINE operation, target must be an int or a list, and content must match."

/-- The trailing-whitespace characters stripped by Python `str.rstrip()`
(ASCII whitespace plus the separator controls and `\x85`; the rarely used
Unicode space category is not enumerated). -/
def isPyWhitespace (c : Char) : Bool :=
  c = ' ' || c = '\t' || c = '\n' || c = '\r' || c = '\x0b' || c = '\x0c' ||
  c = '\x1c' || c = '\x1d' || c = '\x1e' || c = '\x1f' || c = '\x85'

/-- Python `s.rstrip()`. -/
def pyRstrip (s : List Char) : List Char :=
  (s.reverse.dropWhile isPyWhitespace).reverse

/-- `LineEditor._append_block` (line_editor.py 224-243): the file is opened
in append mode and `'\n' + content.rstrip() + '\n'` is written after the
existing content. -/
def appendBlock (content fileContent : List Char) : List Char :=
  fileContent ++ '\n' :: (pyRstrip content ++ ['\n'])

/-- `lines_changed` reported by `_append_block`:
`request.content.count('\n') + 1`. -/
def appendBlockLinesChanged (content : List Char) : Nat :=
  content.count '\n' + 1

/-! ## `PatternEditor._edit_pattern`
(src/editor/strategies/pattern_editor.py 92-143) -/

/-- A metadata dictionary value (`EditResult.metadata : Dict[str, Any]`). -/
inductive MVal where
  | natV (n : Nat)
  | strV (s : List Char)
deriving DecidableEq

/-- The result fields a strategy fills in (`EditResult` minus the fields the
service sets; the `diff` text and `execution_time_ms` are presentation-only
and not modelled). -/
structure StratResult where
  success : Bool
  lines_changed : Nat := 0
  bytes_changed : Int := 0
  error : Option String := none
  metadata : List (String × MVal) := []
deriving DecidableEq

/-- The behavior of a compiled `re` pattern (the `re` standard library is
external to the repository): `findCount content` is
`len(list(pattern.finditer(content)))` and `subAll replacement content` is
`pattern.sub(replacement, content)`. -/
structure PyRegex where
  findCount : List Char → Nat
  subAll : List Char → List Char → List Char

/-- `PatternEditor._edit_pattern` (pattern_editor.py 92-143), returning the
resulting file content and the strategy result.  `countDiff` stands for
`_count_changed_lines(_generate_diff(original, modified))` (a `difflib`
rendering, external).  The whole-content substitution of
`_edit_pattern_standard` is modelled; the zero-match branch returns before
any write, leaving the file untouched. -/
def editPattern (rx : PyRegex) (countDiff : List Char → List Char → Nat)
    (pattern replacement : List Char) (fileContent : List Char) :
    List Char × StratResult :=
  let matchCount := rx.findCount fileContent
  if matchCount = 0 then
    (fileContent,
      { success := true
        lines_changed := 0
        bytes_changed := 0
        metadata := [("matches_found", .natV 0), ("pattern", .strV pattern)] })
  else
    let modified := rx.subAll replacement fileContent
    (modified,
      { success := true
        lines_changed := countDiff fileContent modified
        bytes_changed := (modified.length : Int) - (fileContent.length : Int)
        metadata := [("matches_found", .natV matchCount),
          ("pattern", .strV pattern), ("replacement", .strV replacement)] })

/-- Number of occurrences of a literal substring: the `finditer` count of a
regex consisting of escaped literal characters (used to instantiate
`PyRegex` on concrete inputs). -/
def countSubstringOcc (needle hay : List Char) : Nat :=
  ((List.range hay.length).filter
    (fun i => needle.isPrefixOf (hay.drop i))).length

/-! ## `ASTEditor` / `ASTTransformer`
(src/editor/strategies/ast_editor.py) -/

/-- A Python statement, restricted to the constructors the transformation
handlers inspect (`ast.FunctionDef`, `ast.ClassDef`, `ast.Import`,
`ast.ImportFrom`, docstring `ast.Expr`/`ast.Constant`, and an opaque
leaf for every other statement).  Decorators and import aliases are
carried as plain data: the handlers never recurse into them. -/
inductive PyStmt where
  | functionDef (name : String) (decorator_list : List String)
      (body : List PyStmt)
  | classDef (name : String) (decorator_list : List String)
      (body : List PyStmt)
  | importStmt (names : List (String × Option String))
  | importFrom (module : String) (names : List (String × Option String))
  | exprConst (s : String)
  | otherStmt

/-- `ast.Module`. -/
structure PyModule where
  body : List PyStmt

/-- A node handed to `ASTTransformer.visit`: the module or a statement. -/
inductive PyNode where
  | moduleNode (m : PyModule)
  | stmtNode (s : PyStmt)

/-- The `parameters` dictionary of a transformation config; a missing key
(`dict.get` returning `None`) is `none`.  `add_method` carries the
`{name, body}` sub-dictionary of `modify_class`. -/
structure TransformParams where
  old_name : Option String := none
  new_name : Option String := none
  module : Option String := none
  aliasName : Option String := none
  function_name : Option String := none
  modification_type : Option String := none
  docstring : Option String := none
  target_name : Option String := none
  decorator : Option String := none
  class_name : Option String := none
  add_method : Option (String × String) := none

/-- A transformation config `{'type': ..., 'parameters': ...}` as produced
by `_parse_transformation_config` (the JSON decoding itself is external). -/
structure TransformConfig where
  type : String
  parameters : TransformParams

/-- `ASTTransformer._rename_function` (ast_editor.py 265-275). -/
def renameFunctionH (p : TransformParams) : PyNode → PyNode × List String
  | .stmtNode (.functionDef name decs body) =>
    match p.old_name, p.new_name with
    | some o, some nn =>
      if name = o then
        (.stmtNode (.functionDef nn decs body),
          ["Renamed function " ++ o ++ " to " ++ nn])
      else
        (.stmtNode (.functionDef name decs body), [])
    | _, _ => (.stmtNode (.functionDef name decs body), [])
  | n => (n, [])

/-- `ASTTransformer._add_import` (ast_editor.py 277-305): note the source
builds an `ImportFrom` when an alias is supplied and an `Import`
otherwise, inserting after a leading docstring expression. -/
def addImportH (p : TransformParams) : PyNode → PyNode × List String
  | .moduleNode m =>
    match p.module with
    | some moduleName =>
      let importNode : PyStmt :=
        match p.aliasName with
        | some a => .importFrom moduleName [(a, none)]
        | none => .importStmt [(moduleName, none)]
      let insertPos : Nat :=
        match m.body with
        | .exprConst _ :: _ => 1
        | _ => 0
      (.moduleNode ⟨m.body.insertIdx insertPos importNode⟩,
        ["Added import: " ++ moduleName])
    | none => (.moduleNode m, [])
  | n => (n, [])

/-- Whether `_remove_import` removes this statement. -/
def removesImport (moduleToRemove : Option String) : PyStmt → Bool
  | .importStmt names =>
    names.any (fun a => some a.1 == moduleToRemove)
  | .importFrom m _ => some m == moduleToRemove
  | _ => false

/-- `ASTTransformer._remove_import` (ast_editor.py 307-332). -/
def removeImportH (p : TransformParams) : PyNode → PyNode × List String
  | .moduleNode m =>
    let keep := m.body.filter (fun s => !(removesImport p.module s))
    let removedCount := m.body.length - keep.length
    (.moduleNode ⟨keep⟩,
      List.replicate removedCount
        ("Removed import: " ++ (p.module.getD "None")))
  | n => (n, [])

/-- `ASTTransformer._modify_function_body` (ast_editor.py 334-350). -/
def modifyFunctionBodyH (p : TransformParams) : PyNode → PyNode × List String
  | .stmtNode (.functionDef name decs body) =>
    if some name = p.function_name then
      if p.modification_type = some "add_docstring" then
        (.stmtNode (.functionDef name decs
            (.exprConst (p.docstring.getD "") :: body)),
          ["Added docstring to " ++ name])
      else
        (.stmtNode (.functionDef name decs body), [])
    else
      (.stmtNode (.functionDef name decs body), [])
  | n => (n, [])

/-- `ASTTransformer._add_decorator` (ast_editor.py 352-363). -/
def addDecoratorH (p : TransformParams) : PyNode → PyNode × List String
  | .stmtNode (.functionDef name decs body) =>
    match p.decorator with
    | some d =>
      if some name = p.target_name then
        (.stmtNode (.functionDef name (decs ++ [d]) body),
          ["Added decorator @" ++ d ++ " to " ++ name])
      else
        (.stmtNode (.functionDef name decs body), [])
    | none => (.stmtNode (.functionDef name decs body), [])
  | .stmtNode (.classDef name decs body) =>
    match p.decorator with
    | some d =>
      if some name = p.target_name then
        (.stmtNode (.classDef name (decs ++ [d]) body),
          ["Added decorator @" ++ d ++ " to " ++ name])
      else
        (.stmtNode (.classDef name decs body), [])
    | none => (.stmtNode (.classDef name decs body), [])
  | n => (n, [])

/-- `ASTTransformer._modify_class` (ast_editor.py 365-397). -/
def modifyClassH (p : TransformParams) : PyNode → PyNode × List String
  | .stmtNode (.classDef name decs body) =>
    if some name = p.class_name then
      match p.add_method with
      | some (methodName, methodBody) =>
        (.stmtNode (.classDef name decs
            (body ++ [.functionDef methodName [] [.exprConst methodBody]])),
          ["Added method " ++ methodName ++ " to class " ++ name])
      | none => (.stmtNode (.classDef name decs body), [])
    else
      (.stmtNode (.classDef name decs body), [])
  | n => (n, [])

/-- `ASTTransformer.transformation_handlers` (ast_editor.py 246-253). -/
def transformationHandlers :
    List (String × (TransformParams → PyNode → PyNode × List String)) :=
  [("rename_function", renameFunctionH),
   ("add_import", addImportH),
   ("remove_import", removeImportH),
   ("modify_function_body", modifyFunctionBodyH),
   ("add_decorator", addDecoratorH),
   ("modify_class", modifyClassH)]

/-- The handler step of `ASTTransformer.visit` (ast_editor.py 255-263): the
handler runs exactly when the config type is a key of
`transformation_handlers`; otherwise the node passes through untouched and
nothing is recorded in `applied_transformations`. -/
def applyHandler (cfg : TransformConfig) (n : PyNode) : PyNode × List String :=
  match transformationHandlers.lookup cfg.type with
  | some h => h cfg.parameters n
  | none => (n, [])

mutual

/-- `ASTTransformer.visit`: apply the handler at this node, then
`NodeTransformer.generic_visit` recurses into the (possibly new) children
with `self.visit`.  Python bounds this recursion only by the handlers'
behavior, so the embedding carries explicit fuel and returns `none` when
it runs out; every theorem's conclusion is independent of the fuel chosen. -/
def visitNodeF (cfg : TransformConfig) : Nat → PyNode →
    Option (PyNode × List String)
  | 0, _ => none
  | fuel + 1, n =>
    let step := applyHandler cfg n
    match step.1 with
    | .moduleNode m =>
      (visitStmtsF cfg fuel m.body).map
        (fun r => (.moduleNode ⟨r.1⟩, step.2 ++ r.2))
    | .stmtNode (.functionDef name decs body) =>
      (visitStmtsF cfg fuel body).map
        (fun r => (.stmtNode (.functionDef name decs r.1), step.2 ++ r.2))
    | .stmtNode (.classDef name decs body) =>
      (visitStmtsF cfg fuel body).map
        (fun r => (.stmtNode (.classDef name decs r.1), step.2 ++ r.2))
    | .stmtNode s => some (.stmtNode s, step.2)

/-- Visit every statement of a body in order (the list handling of
`NodeTransformer.generic_visit`); a visit result that is not a statement
cannot arise with the handlers above and falls back to the original. -/
def visitStmtsF (cfg : TransformConfig) : Nat → List PyStmt →
    Option (List PyStmt × List String)
  | _, [] => some ([], [])
  | 0, _ :: _ => none
  | fuel + 1, s :: ss => do
    let r ← visitNodeF cfg fuel (.stmtNode s)
    let rs ← visitStmtsF cfg fuel ss
    let s' := match r.1 with
      | .stmtNode s' => s'
      | .moduleNode _ => s
    some (s' :: rs.1, r.2 ++ rs.2)

end

/-- `ASTEditor._edit_ast` (ast_editor.py 107-168) after the file has been
read and parsed: run the transformer over the parsed module and re-render
it.  `render` stands for `astor.to_source`/`ast.unparse` and `countDiff`
for the `difflib`-based changed-line count (both external); the
`transformation_config` metadata entry and the `.bak` copy made when
`create_backup` is set are not modelled.  Returns the content written back
to the file and the strategy result (`none` only on fuel exhaustion). -/
def editAstCore (cfg : TransformConfig) (fuel : Nat)
    (render : PyModule → List Char)
    (countDiff : List Char → List Char → Nat)
    (tree : PyModule) (fileContent : List Char) :
    Option (List Char × StratResult) :=
  (visitNodeF cfg fuel (.moduleNode tree)).map (fun r =>
    let modifiedTree : PyModule :=
      match r.1 with
      | .moduleNode m => m
      | .stmtNode _ => tree
    let modifiedContent := render modifiedTree
    (modifiedContent,
      { success := true
        lines_changed := countDiff fileContent modifiedContent
        bytes_changed := (modifiedContent.length : Int) -
          (fileContent.length : Int)
        metadata := [("transformations_applied", .natV r.2.length)] }))

/-! ## Filesystem and clock model -/

/-- A file on disk: decoded content and POSIX modification time.  The MD5
checksum of a file is modelled by its content (`_calculate_checksum` is
injective up to MD5 collisions, which are idealized away). -/
structure FileRec where
  content : List Char
  mtime : Nat
deriving DecidableEq

/-- The filesystem: an association list from path to file. -/
def FileSys : Type := List (String × FileRec)

/-- Read a path (first binding wins; `fsSet` keeps bindings unique). -/
def fsGet (fs : FileSys) (p : String) : Option FileRec :=
  List.lookup p fs

/-- Write a path, replacing any previous binding. -/
def fsSet (fs : FileSys) (p : String) (r : FileRec) : FileSys :=
  (p, r) :: List.filter (fun e => e.1 != p) fs

theorem fsGet_fsSet_self (fs : FileSys) (p : String) (r : FileRec) :
    fsGet (fsSet fs p r) p = some r := by
  simp [fsGet, fsSet, List.lookup]

theorem fsGet_fsSet_ne (fs : FileSys) (p q : String) (r : FileRec)
    (h : q ≠ p) : fsGet (fsSet fs p r) q = fsGet fs q := by
  simp only [fsGet, fsSet, List.lookup, beq_eq_false_iff_ne.mpr h]
  induction fs with
  | nil => rfl
  | cons e fs ih =>
    by_cases he : e.1 = p
    · simp only [List.filter_cons, he]
      simp only [bne_self_eq_false, Bool.false_eq_true, if_false]
      rw [ih]
      have : (q == e.1) = false := beq_eq_false_iff_ne.mpr (he ▸ h)
      cases e with
      | mk k v =>
        simp only at he
        subst he
        simp [List.lookup, this]
    · simp only [List.filter_cons, bne_iff_ne, if_pos he]
      cases e with
      | mk k v =>
        by_cases hq : q = k
        · subst hq
          simp [List.lookup]
        · have hqk : (q == k) = false := beq_eq_false_iff_ne.mpr hq
          simp only [List.lookup, hqk]
          exact ih

/-! ## Service data model (src/editor/service.py, src/editor/interfaces.py) -/

/-- `EditorConfig` (service.py 26-41).  Backups are disabled by default
("since Git manages versions").  The `validate_syntax` flag is carried but
never read by the service. -/
structure EditorConfig where
  backup_enabled : Bool := false
  backup_directory : String := "./backups"
  backup_retention_days : Nat := 7
  max_backup_size_mb : Nat := 100
  max_concurrent_operations : Nat := 10
  lock_timeout_seconds : Nat := 30
  operation_timeout_seconds : Nat := 60
  allowed_extensions : List String :=
    [".py", ".js", ".ts", ".json", ".yaml", ".yml", ".txt", ".md"]
  max_file_size_mb : Nat := 50
  allowed_base_paths : List String := []

/-- `BackupInfo` (interfaces.py 170-178). -/
structure BackupInfo where
  backup_path : String
  original_path : String
  operation_id : String
  created_at : Nat
  file_size : Nat
  checksum : List Char
deriving DecidableEq

/-- `OperationMetadata` (interfaces.py 181-196). -/
structure OperationMetadata where
  operation_id : String
  file_path : String
  operation_type : EditOperationType
  started_at : Nat
  completed_at : Option Nat := none
  backup_info : Option BackupInfo := none
deriving DecidableEq

/-- The mutable state of an `EditorService` plus the filesystem and a
wall clock.  The clock ticks at each `time.time()` call and file write, so
timestamps are strictly increasing; the per-file asyncio locks and the
semaphore are no-ops in this sequential embedding. -/
structure SvcState where
  fs : FileSys
  now : Nat
  active : List (String × OperationMetadata)
  history : List OperationMetadata

/-- `time.time()`: read the clock and advance it. -/
def tick (st : SvcState) : Nat × SvcState :=
  (st.now, { st with now := st.now + 1 })

/-- `EditResult` (interfaces.py 73-111), without the unmodelled `diff` and
`execution_time_ms` fields. -/
structure EditResult where
  success : Bool
  operation_id : String
  file_path : String
  operation_type : EditOperationType
  backup_path : Option String := none
  lines_changed : Nat := 0
  bytes_changed : Int := 0
  error : Option String := none
  metadata : List (String × MVal) := []
deriving DecidableEq

/-- Lift a strategy-produced result into a service-level `EditResult`
(strategies never set `backup_path`; the service does). -/
def stratToEditResult (operation_id file_path : String)
    (operation_type : EditOperationType) (r : StratResult) : EditResult :=
  { success := r.success
    operation_id := operation_id
    file_path := file_path
    operation_type := operation_type
    lines_changed := r.lines_changed
    bytes_changed := r.bytes_changed
    error := r.error
    metadata := r.metadata }

/-- `RollbackRequest` (interfaces.py 114-118). -/
structure RollbackRequest where
  operation_id : String
  force : Bool := false

/-- `RollbackResult` (interfaces.py 121-148). -/
structure RollbackResult where
  success : Bool
  operation_id : String
  file_path : String
  error : Option String := none
  restored_from_backup : Option String := none
deriving DecidableEq

/-! ## `BackupManager` (service.py 382-470) -/

/-- `Path(p).name`: the final path component (the characters after the
last `/`). -/
def pathName (p : String) : String :=
  String.mk ((p.data.reverse.takeWhile (fun c => c != '/')).reverse)

/-- `Path(p).suffix`: pathlib returns `name[i:]` for `i = name.rfind('.')`
when `0 < i < len(name) - 1`, else the empty string. -/
def pathSuffix (p : String) : String :=
  let nm := (pathName p).data
  let tail := nm.reverse.takeWhile (fun c => c != '.')
  if tail.length = nm.length then ""
  else
    let i := nm.length - tail.length - 1
    if 0 < i ∧ i < nm.length - 1 then String.mk ('.' :: tail.reverse) else ""

/-- `Path(p).stem`: the name without its suffix. -/
def pathStem (p : String) : String :=
  String.mk ((pathName p).data.take
    ((pathName p).data.length - (pathSuffix p).data.length))

/-- `BackupManager.create_backup` (service.py 390-422): copy the file
(with `shutil.copy2`, which preserves the source modification time) into
the backup directory under a stem/operation-id/timestamp name and return a
`BackupInfo` carrying the source checksum.  Raises `BackupException` when
the source is missing. -/
def create_backup (cfg : EditorConfig) (st : SvcState)
    (file_path operation_id : String) :
    Except String (SvcState × BackupInfo) :=
  match fsGet st.fs file_path with
  | none => .error ("Source file does not exist: " ++ file_path)
  | some src =>
    let timestamp := st.now
    let backup_path := cfg.backup_directory ++ "/" ++ pathStem file_path ++
      "_" ++ operation_id ++ "_" ++ toString timestamp ++
      pathSuffix file_path ++ ".bak"
    let fs1 := fsSet st.fs backup_path
      { content := src.content, mtime := src.mtime }
    let st1 : SvcState := { st with fs := fs1, now := st.now + 1 }
    .ok (st1,
      { backup_path := backup_path
        original_path := file_path
        operation_id := operation_id
        created_at := timestamp
        file_size := src.content.length
        checksum := src.content })

/-- `BackupManager.restore_backup` (service.py 424-449): raise
`BackupException` if the backup file is missing; unless `force`, raise
when the target exists and its modification time is strictly newer than
the backup's (the checksums computed alongside are dead values in the
source); otherwise `shutil.copy2` the backup over the target (preserving
the backup's modification time) and return success. -/
def restore_backup (fs : FileSys) (backup_path target_path : String)
    (force : Bool) : Except String FileSys :=
  match fsGet fs backup_path with
  | none => .error ("Backup file does not exist: " ++ backup_path)
  | some b =>
    let stale : Bool :=
      if force then false
      else
        match fsGet fs target_path with
        | some t => decide (t.mtime > b.mtime)
        | none => false
    if stale then
      .error "Target file has been modified since backup. Use force=True to override."
    else
      .ok (fsSet fs target_path { content := b.content, mtime := b.mtime })

/-! ## `EditorService` (service.py 44-379) -/

/-- `EditorService.rollback` (service.py 156-198): linear search of the
history for the operation id; "not found" / "no backup available"
failures; otherwise restore, turning a raised exception into an error
result. -/
def rollback (st : SvcState) (rreq : RollbackRequest) :
    SvcState × RollbackResult :=
  match st.history.find? (fun op => op.operation_id == rreq.operation_id) with
  | none =>
    (st, { success := false, operation_id := rreq.operation_id,
           file_path := "",
           error := some ("Operation " ++ rreq.operation_id ++ " not found") })
  | some op =>
    match op.backup_info with
    | none =>
      (st, { success := false, operation_id := rreq.operation_id,
             file_path := op.file_path,
             error := some "No backup available for this operation" })
    | some b =>
      match restore_backup st.fs b.backup_path op.file_path rreq.force with
      | .error e =>
        (st, { success := false, operation_id := rreq.operation_id,
               file_path := op.file_path, error := some e })
      | .ok fs' =>
        ({ st with fs := fs' },
         { success := true, operation_id := rreq.operation_id,
           file_path := op.file_path,
           restored_from_backup := some b.backup_path })

/-- What one `strategy.edit(request)` invocation does, as observed by
`_execute_edit`: it may read and write the filesystem and consume time,
and it either returns an `EditResult` payload, raises, or exceeds the
`asyncio.wait_for` deadline. -/
inductive StratOutcome where
  | ok (r : StratResult)
  | exn (msg : String)
  | timeout

/-- The behavior of a strategy under `_execute_edit`. -/
def Strategy : Type := FileSys → Nat → FileSys × Nat × StratOutcome

/-- `EditorService._validate_request` (service.py 290-320): existence,
extension, size, and base-path checks, returning the exception message if
one is raised.  Path resolution is modelled as the identity (paths are
taken as canonical), and the size comparison is exact rather than via
float megabytes.  (In the source the three `ValidationException` sites
actually raise `NameError` because that name is never imported into
service.py; either way an exception with a message propagates, which is
what this model captures.) -/
def validate_request (cfg : EditorConfig) (fs : FileSys) (req : EditRequest) :
    Option String :=
  match fsGet fs req.file_path with
  | none => some ("File not found: " ++ req.file_path)
  | some f =>
    if !(cfg.allowed_extensions.contains (pathSuffix req.file_path)) then
      some ("File extension " ++ pathSuffix req.file_path ++ " not allowed")
    else if f.content.length > cfg.max_file_size_mb * 1048576 then
      some "File size exceeds limit"
    else if !cfg.allowed_base_paths.isEmpty &&
        cfg.allowed_base_paths.all
          (fun bp => !((bp ++ "/").isPrefixOf req.file_path) && bp != req.file_path) then
      some ("File path not in allowed base paths: " ++ req.file_path)
    else
      none

/-- Which of the three registered strategy objects serves an operation. -/
inductive StrategyId where
  | lineEd
  | patternEd
  | astEd
deriving DecidableEq

/-- `EditorService._get_strategy` (service.py 322-331).  The `strategies`
dict built in `__init__` (service.py 51-56) has exactly the keys LINE,
RANGE (both `LineEditor`), PATTERN (`PatternEditor`) and AST
(`ASTEditor`); APPEND is not registered, so an APPEND request raises
`EditorException` here.  The subsequent `supports_operation` check passes
for every registered pair. -/
def get_strategy : EditOperationType → Except String StrategyId
  | .line => .ok .lineEd
  | .range => .ok .lineEd
  | .pattern => .ok .patternEd
  | .ast => .ok .astEd
  | .append => .error "Unsupported operation type: EditOperationType.APPEND"

/-- `EditorService._execute_edit` (service.py 246-288): create a backup
when both the request option and the service config ask for one (storing
it into the active operation's metadata — in Python the object in
`active_operations` is the same object `edit_file` later moves to
history); run the strategy; on success attach the backup path to the
result; on timeout or exception attempt `restore_backup` (with the
default `force=False`) before re-raising — a failure of the restore
itself replaces the original error. -/
def execute_edit (cfg : EditorConfig) (req : EditRequest) (strat : Strategy)
    (operation_id : String) (st : SvcState) :
    SvcState × Except String EditResult :=
  let backupStep : Except String (SvcState × Option BackupInfo) :=
    if req.options.create_backup ∧ cfg.backup_enabled then
      match create_backup cfg st req.file_path operation_id with
      | .error e => .error e
      | .ok (st1, binfo) =>
        let st2 : SvcState := { st1 with
          active := st1.active.map (fun e =>
            if e.1 = operation_id then
              (e.1, { e.2 with backup_info := some binfo })
            else e) }
        .ok (st2, some binfo)
    else
      .ok (st, none)
  match backupStep with
  | .error e => (st, .error e)
  | .ok (st1, binfo?) =>
    let (fs2, now2, outcome) := strat st1.fs st1.now
    let st2 : SvcState := { st1 with fs := fs2, now := now2 }
    match outcome with
    | .ok r =>
      let r1 := stratToEditResult operation_id req.file_path
        req.operation_type r
      let r2 := match binfo? with
        | some b => { r1 with backup_path := some b.backup_path }
        | none => r1
      (st2, .ok r2)
    | .timeout =>
      match binfo? with
      | some b =>
        match restore_backup st2.fs b.backup_path req.file_path false with
        | .error e => (st2, .error e)
        | .ok fs3 =>
          ({ st2 with fs := fs3 },
           .error ("Edit operation timed out after " ++
             toString req.options.timeout_seconds ++ " seconds"))
      | none =>
        (st2, .error ("Edit operation timed out after " ++
          toString req.options.timeout_seconds ++ " seconds"))
    | .exn m =>
      match binfo? with
      | some b =>
        match restore_backup st2.fs b.backup_path req.file_path false with
        | .error e => (st2, .error e)
        | .ok fs3 => ({ st2 with fs := fs3 }, .error m)
      | none => (st2, .error m)

/-- The `try` block of `EditorService.edit_file` (service.py 88-97):
validate, pick the strategy, and execute under the (sequentially trivial)
semaphore and per-file lock; a raised exception is the `.error` case. -/
def edit_file_step (cfg : EditorConfig) (req : EditRequest) (strat : Strategy)
    (operation_id : String) (st2 : SvcState) :
    SvcState × Except String EditResult :=
  match validate_request cfg st2.fs req with
  | some e => (st2, .error e)
  | none =>
    match get_strategy req.operation_type with
    | .error e => (st2, .error e)
    | .ok _ => execute_edit cfg req strat operation_id st2

/-- `EditorService.edit_file` (service.py 73-115): create the operation
metadata and place it in the active set; run the try block; on either
outcome stamp `completed_at`, append the metadata object (the one from
the active set, which `_execute_edit` may have given a backup) to the
history, build the result, and finally drop the operation from the active
set. -/
def edit_file (cfg : EditorConfig) (req : EditRequest) (strat : Strategy)
    (operation_id : String) (st : SvcState) : SvcState × EditResult :=
  let p1 := tick st
  let start_time := p1.1
  let st1 := p1.2
  let md : OperationMetadata :=
    { operation_id := operation_id
      file_path := req.file_path
      operation_type := req.operation_type
      started_at := start_time }
  let st2 : SvcState := { st1 with active := (operation_id, md) :: st1.active }
  let step := edit_file_step cfg req strat operation_id st2
  let st3 := step.1
  let res := step.2
  let p2 := tick st3
  let t := p2.1
  let st4 := p2.2
  let mdFinal : OperationMetadata :=
    { (List.lookup operation_id st4.active).getD md with completed_at := some t }
  let st5 : SvcState := { st4 with
    history := st4.history ++ [mdFinal]
    active := st4.active.filter (fun e => e.1 != operation_id) }
  (st5,
    match res with
    | .ok r => r
    | .error e =>
      { success := false
        operation_id := operation_id
        file_path := req.file_path
        operation_type := req.operation_type
        error := some e })

/-- The `OperationMetadata` object `edit_file` creates at entry
(`started_at` is the first `time.time()` reading). -/
def startMeta (req : EditRequest) (opId : String) (st : SvcState) :
    OperationMetadata :=
  { operation_id := opId
    file_path := req.file_path
    operation_type := req.operation_type
    started_at := st.now }

/-- The service state right after `edit_file` registered the operation in
the active set (one clock tick has elapsed). -/
def startState (req : EditRequest) (opId : String) (st : SvcState) :
    SvcState :=
  { st with
    now := st.now + 1
    active := (opId, startMeta req opId st) :: st.active }

/-- The bookkeeping `edit_file` performs after the try block: stamp
`completed_at` with a fresh `time.time()` reading on the metadata object
found in the active set, append it to the history, and drop the operation
from the active set. -/
def finishState (opId : String) (md : OperationMetadata) (st3 : SvcState) :
    SvcState :=
  { st3 with
    now := st3.now + 1
    history := st3.history ++
      [{ (List.lookup opId st3.active).getD md with
          completed_at := some st3.now }]
    active := st3.active.filter (fun e => e.1 != opId) }

/-! ## Concrete fixtures used by witnesses and counterexamples -/

/-- A one-file filesystem: `f.py` containing `"original"`, mtime 5. -/
def fsOrig : FileSys := [("f.py", { content := "original".data, mtime := 5 })]

/-- Service state over `fsOrig` with an empty active set and history. -/
def stOrig : SvcState := { fs := fsOrig, now := 10, active := [], history := [] }

/-- A valid single-line edit request against `f.py` (default options, so
`create_backup = true`). -/
def reqLine1 : EditRequest :=
  { file_path := "f.py", operation_type := .line, target := .intT 1,
    content := .strC "x".data }

/-- A valid APPEND request against `f.py`. -/
def reqAppend : EditRequest :=
  { file_path := "f.py", operation_type := .append, target := .noneT,
    content := .strC "b".data }

/-- A service config with backups enabled. -/
def cfgBackup : EditorConfig := { backup_enabled := true }

/-- An injected-fault strategy that overwrites the file (advancing its
mtime to the current clock) and then raises. -/
def corruptStrat : Strategy := fun fs n =>
  (fsSet fs "f.py" { content := "corrupted".data, mtime := n }, n + 1,
    .exn "injected fault")

/-- An injected-fault strategy that raises without touching anything. -/
def raiseStrat : Strategy := fun fs n => (fs, n, .exn "boom")

/-- A strategy that succeeds without touching anything. -/
def okStrat : Strategy := fun fs n => (fs, n, .ok { success := true })

/-- A recorded backup for operation `op9`. -/
def binfoNine : BackupInfo :=
  { backup_path := "b.bak", original_path := "f.py", operation_id := "op9",
    created_at := 5, file_size := 3, checksum := "old".data }

/-- A completed operation `op9` that holds `binfoNine`. -/
def opNine : OperationMetadata :=
  { operation_id := "op9", file_path := "f.py", operation_type := .line,
    started_at := 1, completed_at := some 2, backup_info := some binfoNine }

/-- A state in which `f.py` was modified (mtime 9) after the `op9` backup
(mtime 5) was taken. -/
def stRoll : SvcState :=
  { fs := [("f.py", { content := "new".data, mtime := 9 }),
           ("b.bak", { content := "old".data, mtime := 5 })],
    now := 20, active := [], history := [opNine] }

/-- An unrecognized transformation config. -/
def cfgFrob : TransformConfig := { type := "frobnicate", parameters := {} }

/-- A one-function Python module. -/
def treeAdd : PyModule := ⟨[.functionDef "add_numbers" [] [.otherStmt]]⟩

/-- A representative value of `ast.unparse` on `treeAdd`. -/
def renderAdd : PyModule → List Char := fun _ => "def add_numbers():\n    pass".data

/-! ## Claim theorems -/

/-- C2: for every valid single-line edit `edit_line(file, n, C)` on a file in
which line `n` exists (file using `\n` line endings, `C` a single line, both
non-empty as `EditRequest.__post_init__` requires), `LineEditor._edit_lines`
succeeds with `lines_changed = 1` (the one targeted line number that
existed), the resulting file has line `n` equal to `C`, every other line
identical to before, and the trailing-newline convention preserved. -/
theorem edit_line_exactness
    (content C : List Char) (n : Int)
    (hlf : ∀ c ∈ content, isLineBoundary c = true → c = '\n')
    (hC : ∀ c ∈ C, isLineBoundary c = false)
    (hCne : C ≠ [])
    (hn : 1 ≤ n)
    (hex : n ≤ ((pySplitlines content).length : Int)) :
    ∃ out,
      editLinesDispatch (.intT n) (.strC C) content = .ok (out, 1) ∧
      pySplitlines out = (pySplitlines content).set (n - 1).toNat C ∧
      (pySplitlines out)[(n - 1).toNat]? = some C ∧
      (∀ i : Nat, i ≠ (n - 1).toNat →
        (pySplitlines out)[i]? = (pySplitlines content)[i]?) ∧
      (out.getLast? = some '\n' ↔ content.getLast? = some '\n') := by
  classical
  have hklt : (n - 1).toNat < (pySplitlines content).length := by omega
  have hmap : (List.enumFrom 1 (pySplitlines content)).map
      (fun p => (pyDictLookup [(n, C)] (p.1 : Int)).getD p.2) =
      (pySplitlines content).set (n - 1).toNat C := by
    have h := enumFrom_map_single (pySplitlines content) 1 n C
    rw [if_pos ⟨by push_cast; omega, by push_cast; omega⟩] at h
    simpa using h
  have hcount : ((List.enumFrom 1 (pySplitlines content)).filter
      (fun p => (pyDictLookup [(n, C)] (p.1 : Int)).isSome)).length = 1 := by
    have h := enumFrom_count_single (pySplitlines content) 1 n C
    rw [if_pos ⟨by push_cast; omega, by push_cast; omega⟩] at h
    exact h
  have hout : editLinesCore [(n, C)] content =
      (pyJoinNL ((pySplitlines content).set (n - 1).toNat C) ++
        (if content.getLast? = some '\n' then ['\n'] else []), 1) := by
    simp only [editLinesCore]
    rw [hmap, hcount]
  have hL'nb : ∀ l ∈ (pySplitlines content).set (n - 1).toNat C,
      ∀ c ∈ l, isLineBoundary c = false := by
    intro l hl
    rcases List.mem_or_eq_of_mem_set hl with hmem | rfl
    · exact pySplitlines_no_boundary_mem content l hmem
    · exact hC
  have hL'ne : (pySplitlines content).set (n - 1).toNat C ≠ [] := by
    intro hcon
    have := congrArg List.length hcon
    rw [List.length_set] at this
    simp only [List.length_nil] at this
    omega
  have hgetk : ((pySplitlines content).set (n - 1).toNat C)[(n - 1).toNat]? =
      some C := by
    rw [List.getElem?_set_self', List.getElem?_eq_getElem hklt]
    rfl
  have hlastL' : content.getLast? ≠ some '\n' →
      ((pySplitlines content).set (n - 1).toNat C).getLast? ≠ some [] := by
    intro hend
    by_cases hkl : (n - 1).toNat = (pySplitlines content).length - 1
    · have hlast : ((pySplitlines content).set (n - 1).toNat C).getLast? =
          some C := by
        rw [List.getLast?_eq_getElem?, List.length_set, ← hkl]
        exact hgetk
      rw [hlast]
      simp [hCne]
    · have hlast : ((pySplitlines content).set (n - 1).toNat C).getLast? =
          (pySplitlines content).getLast? := by
        rw [List.getLast?_eq_getElem?, List.getLast?_eq_getElem?,
          List.length_set, List.getElem?_set_ne hkl]
      rw [hlast]
      exact pySplitlines_getLast_ne_nil content hlf hend
  by_cases hend : content.getLast? = some '\n'
  · have hsplit : pySplitlines
        (pyJoinNL ((pySplitlines content).set (n - 1).toNat C) ++ ['\n']) =
        (pySplitlines content).set (n - 1).toNat C := by
      simpa using pySplitlines_pyJoinNL
        ((pySplitlines content).set (n - 1).toNat C) true hL'nb (by simp)
        (fun hcon => absurd hcon hL'ne)
    refine ⟨pyJoinNL ((pySplitlines content).set (n - 1).toNat C) ++ ['\n'],
      ?_, hsplit, ?_, ?_, ?_⟩
    · rw [show editLinesDispatch (.intT n) (.strC C) content =
        .ok (editLinesCore [(n, C)] content) from rfl, hout, if_pos hend]
    · rw [hsplit]
      exact hgetk
    · intro i hi
      rw [hsplit]
      exact List.getElem?_set_ne (fun hcon => hi hcon.symm)
    · constructor
      · intro _
        exact hend
      · intro _
        exact List.getLast?_concat _
  · have hsplit : pySplitlines
        (pyJoinNL ((pySplitlines content).set (n - 1).toNat C)) =
        (pySplitlines content).set (n - 1).toNat C := by
      simpa using pySplitlines_pyJoinNL
        ((pySplitlines content).set (n - 1).toNat C) false hL'nb
        (fun _ => hlastL' hend) (fun hcon => absurd hcon hL'ne)
    refine ⟨pyJoinNL ((pySplitlines content).set (n - 1).toNat C),
      ?_, hsplit, ?_, ?_, ?_⟩
    · rw [show editLinesDispatch (.intT n) (.strC C) content =
        .ok (editLinesCore [(n, C)] content) from rfl, hout, if_neg hend,
        List.append_nil]
    · rw [hsplit]
      exact hgetk
    · intro i hi
      rw [hsplit]
      exact List.getElem?_set_ne (fun hcon => hi hcon.symm)
    · constructor
      · intro hcon
        exact absurd hcon
          (pyJoinNL_getLast_not_newline _ hL'nb (hlastL' hend))
      · intro hcon
        exact absurd hcon hend

/-- C2 witness: editing line 2 of `"a\nb\nc\n"` to `"XY"`. -/
theorem edit_line_exactness_witness :
    ∃ out,
      editLinesDispatch (.intT 2) (.strC "XY".data) "a\nb\nc\n".data =
        .ok (out, 1) ∧
      pySplitlines out =
        (pySplitlines "a\nb\nc\n".data).set ((2 : Int) - 1).toNat "XY".data ∧
      (pySplitlines out)[((2 : Int) - 1).toNat]? = some "XY".data ∧
      (∀ i : Nat, i ≠ ((2 : Int) - 1).toNat →
        (pySplitlines out)[i]? = (pySplitlines "a\nb\nc\n".data)[i]?) ∧
      (out.getLast? = some '\n' ↔ "a\nb\nc\n".data.getLast? = some '\n') :=
  edit_line_exactness "a\nb\nc\n".data "XY".data 2
    (by decide) (by decide) (by decide) (by decide) (by decide)

/-- C3: a pattern edit whose regex has zero matches in the file returns
success with `lines_changed = 0` and `matches_found = 0` in metadata, and
leaves the file content byte-identical (the zero-match branch of
`PatternEditor._edit_pattern` returns before any write). -/
theorem pattern_zero_matches (rx : PyRegex)
    (countDiff : List Char → List Char → Nat)
    (pattern replacement fileContent : List Char)
    (h : rx.findCount fileContent = 0) :
    (editPattern rx countDiff pattern replacement fileContent).1 =
      fileContent ∧
    (editPattern rx countDiff pattern replacement fileContent).2.success =
      true ∧
    (editPattern rx countDiff pattern replacement fileContent).2.lines_changed
      = 0 ∧
    List.lookup "matches_found"
      (editPattern rx countDiff pattern replacement fileContent).2.metadata =
      some (.natV 0) ∧
    (editPattern rx countDiff pattern replacement fileContent).2.error =
      none := by
  simp [editPattern, h, List.lookup]

/-- C3 witness: the literal pattern `"xyz"` does not occur in `"hello\n"`. -/
theorem pattern_zero_matches_witness :
    (editPattern ⟨countSubstringOcc "xyz".data, fun _ c => c⟩ (fun _ _ => 0)
      "xyz".data "q".data "hello\n".data).1 = "hello\n".data ∧
    (editPattern ⟨countSubstringOcc "xyz".data, fun _ c => c⟩ (fun _ _ => 0)
      "xyz".data "q".data "hello\n".data).2.success = true ∧
    (editPattern ⟨countSubstringOcc "xyz".data, fun _ c => c⟩ (fun _ _ => 0)
      "xyz".data "q".data "hello\n".data).2.lines_changed = 0 ∧
    List.lookup "matches_found"
      (editPattern ⟨countSubstringOcc "xyz".data, fun _ c => c⟩ (fun _ _ => 0)
        "xyz".data "q".data "hello\n".data).2.metadata = some (.natV 0) ∧
    (editPattern ⟨countSubstringOcc "xyz".data, fun _ c => c⟩ (fun _ _ => 0)
      "xyz".data "q".data "hello\n".data).2.error = none :=
  pattern_zero_matches ⟨countSubstringOcc "xyz".data, fun _ c => c⟩
    (fun _ _ => 0) "xyz".data "q".data "hello\n".data (by decide)

/-- C5 (code bug): a batch line edit in the tuple shape that
`EditRequest.__post_init__` validates (equal-length non-empty parallel
lists) is accepted at construction time but rejected by
`LineEditor._edit_lines` at execution time, while the list shape that
`_edit_lines` would execute is rejected at construction time; so no batch
edit request can both be constructed and executed. -/
theorem batch_edit_shape_mismatch :
    EditRequest.postInit
      { file_path := "f.py", operation_type := .line,
        target := .tupleT [1, 2] ["X".data, "Y".data],
        content := .strC "ignored".data } = .ok () ∧
    editLinesDispatch (.tupleT [1, 2] ["X".data, "Y".data])
      (.strC "ignored".data) "a\nb\nc\n".data =
      .error "For LINE operation, target must be an int or a list, and content must match." ∧
    EditRequest.postInit
      { file_path := "f.py", operation_type := .line,
        target := .listT [1, 2],
        content := .listC ["X".data, "Y".data] } =
      .error "Line number must be a positive integer" :=
  ⟨rfl, rfl, rfl⟩

/-- C6 (code bug): a valid APPEND request passes construction, but
`EditorService.__init__` registers no strategy under APPEND, so
`_get_strategy` raises and `edit_file` returns a failure without touching
the file — the request is never dispatched to `LineEditor` (which does
support APPEND).  Moreover `_append_block` itself blindly writes
`'\n' + content.rstrip() + '\n'`, so a newline-terminated file would gain a
blank separator line rather than exactly one separating newline. -/
theorem append_not_dispatched :
    EditRequest.postInit reqAppend = .ok () ∧
    get_strategy .append =
      .error "Unsupported operation type: EditOperationType.APPEND" ∧
    (edit_file cfgBackup reqAppend raiseStrat "op3" stOrig).2.success =
      false ∧
    (edit_file cfgBackup reqAppend raiseStrat "op3" stOrig).2.error =
      some "Unsupported operation type: EditOperationType.APPEND" ∧
    fsGet (edit_file cfgBackup reqAppend raiseStrat "op3" stOrig).1.fs "f.py"
      = some { content := "original".data, mtime := 5 } ∧
    appendBlock "b".data "a\n".data = "a\n\nb\n".data :=
  ⟨rfl, rfl, rfl, rfl, rfl, rfl⟩

theorem applyHandler_unknown (cfg : TransformConfig) (n : PyNode)
    (h : transformationHandlers.lookup cfg.type = none) :
    applyHandler cfg n = (n, []) := by
  unfold applyHandler
  rw [h]

/-- With an unrecognized transform kind, `ASTTransformer.visit` is the
identity traversal: no handler fires, nothing lands in
`applied_transformations`, and the tree comes back unchanged (whenever the
fuel suffices for the traversal to complete at all). -/
theorem visit_unknown (cfg : TransformConfig)
    (h : transformationHandlers.lookup cfg.type = none) :
    ∀ fuel : Nat,
      (∀ n, visitNodeF cfg fuel n = none ∨
        visitNodeF cfg fuel n = some (n, [])) ∧
      (∀ ss, visitStmtsF cfg fuel ss = none ∨
        visitStmtsF cfg fuel ss = some (ss, [])) := by
  intro fuel
  induction fuel with
  | zero =>
    constructor
    · intro n
      left
      rfl
    · intro ss
      cases ss with
      | nil =>
        right
        rfl
      | cons s ss =>
        left
        rfl
  | succ fuel ih =>
    constructor
    · intro n
      cases n with
      | moduleNode m =>
        rcases ih.2 m.body with hnone | hsome
        · left
          simp [visitNodeF, applyHandler_unknown cfg _ h, hnone]
        · right
          simp [visitNodeF, applyHandler_unknown cfg _ h, hsome]
      | stmtNode s =>
        cases s with
        | functionDef name decs body =>
          rcases ih.2 body with hnone | hsome
          · left
            simp [visitNodeF, applyHandler_unknown cfg _ h, hnone]
          · right
            simp [visitNodeF, applyHandler_unknown cfg _ h, hsome]
        | classDef name decs body =>
          rcases ih.2 body with hnone | hsome
          · left
            simp [visitNodeF, applyHandler_unknown cfg _ h, hnone]
          · right
            simp [visitNodeF, applyHandler_unknown cfg _ h, hsome]
        | importStmt names =>
          right
          simp [visitNodeF, applyHandler_unknown cfg _ h]
        | importFrom m names =>
          right
          simp [visitNodeF, applyHandler_unknown cfg _ h]
        | exprConst s =>
          right
          simp [visitNodeF, applyHandler_unknown cfg _ h]
        | otherStmt =>
          right
          simp [visitNodeF, applyHandler_unknown cfg _ h]
    · intro ss
      cases ss with
      | nil =>
        right
        rfl
      | cons s ss =>
        rcases ih.1 (.stmtNode s) with h1 | h1
        · left
          simp [visitStmtsF, h1]
        · rcases ih.2 ss with h2 | h2
          · left
            simp [visitStmtsF, h1, h2]
          · right
            simp [visitStmtsF, h1, h2]

/-- C8 (amended): an AST edit whose transform kind is unrecognized is not
rejected: `ASTEditor.validate_request` never inspects the kind, no handler
fires (zero applied transformations), and `_edit_ast` still re-renders the
parsed tree and rewrites the file with it, returning success. -/
theorem ast_unknown_kind_noop (cfg : TransformConfig) (fuel : Nat)
    (render : PyModule → List Char) (countDiff : List Char → List Char → Nat)
    (tree : PyModule) (fileContent : List Char)
    (hunknown : transformationHandlers.lookup cfg.type = none)
    (hfuel : (visitNodeF cfg fuel (.moduleNode tree)).isSome = true) :
    editAstCore cfg fuel render countDiff tree fileContent =
      some (render tree,
        { success := true
          lines_changed := countDiff fileContent (render tree)
          bytes_changed := ((render tree).length : Int) -
            (fileContent.length : Int)
          metadata := [("transformations_applied", .natV 0)] }) := by
  rcases (visit_unknown cfg hunknown fuel).1 (.moduleNode tree) with
    hnone | hsome
  · rw [hnone] at hfuel
    simp at hfuel
  · unfold editAstCore
    rw [hsome]
    rfl

/-- C8 witness: the unknown kind `"frobnicate"` on a one-function module. -/
theorem ast_unknown_kind_noop_witness :
    editAstCore cfgFrob 9 renderAdd (fun _ _ => 0) treeAdd
      "def add_numbers(): pass".data =
      some (renderAdd treeAdd,
        { success := true
          lines_changed := 0
          bytes_changed := ((renderAdd treeAdd).length : Int) -
            (("def add_numbers(): pass".data).length : Int)
          metadata := [("transformations_applied", .natV 0)] }) :=
  ast_unknown_kind_noop cfgFrob 9 renderAdd (fun _ _ => 0) treeAdd
    "def add_numbers(): pass".data rfl rfl

/-- C8 counterexample: with the unrecognized kind `"frobnicate"`, the edit
does not fail before file I/O — it succeeds, and the file is rewritten
with the re-rendered (reformatted) source. -/
theorem ast_unknown_kind_counterexample :
    (editAstCore cfgFrob 9 renderAdd (fun _ _ => 0) treeAdd
      "def add_numbers(): pass".data).map
      (fun r => (r.1, r.2.success,
        List.lookup "transformations_applied" r.2.metadata)) =
      some ("def add_numbers():\n    pass".data, true, some (.natV 0)) ∧
    "def add_numbers():\n    pass".data ≠ "def add_numbers(): pass".data :=
  ⟨rfl, by decide⟩

/-- C7: `rollback` semantics: unknown operation ids fail with "not found";
operations recorded without a backup fail with "no backup available"; a
target whose modification time is newer than the backup's fails without
touching the target unless `force`; otherwise the backup is copied over
the target. -/
theorem rollback_semantics (st : SvcState) (rreq : RollbackRequest) :
    (st.history.find? (fun op => op.operation_id == rreq.operation_id) =
        none →
      (rollback st rreq).1 = st ∧
      (rollback st rreq).2.success = false ∧
      (rollback st rreq).2.error =
        some ("Operation " ++ rreq.operation_id ++ " not found")) ∧
    (∀ op,
      st.history.find? (fun op => op.operation_id == rreq.operation_id) =
        some op →
      op.backup_info = none →
      (rollback st rreq).1 = st ∧
      (rollback st rreq).2.success = false ∧
      (rollback st rreq).2.error =
        some "No backup available for this operation") ∧
    (∀ op b brec trec,
      st.history.find? (fun op => op.operation_id == rreq.operation_id) =
        some op →
      op.backup_info = some b →
      fsGet st.fs b.backup_path = some brec →
      fsGet st.fs op.file_path = some trec →
      rreq.force = false →
      brec.mtime < trec.mtime →
      (rollback st rreq).1 = st ∧
      (rollback st rreq).2.success = false ∧
      (rollback st rreq).2.error =
        some "Target file has been modified since backup. Use force=True to override.") ∧
    (∀ op b brec,
      st.history.find? (fun op => op.operation_id == rreq.operation_id) =
        some op →
      op.backup_info = some b →
      fsGet st.fs b.backup_path = some brec →
      (rreq.force = true ∨
        ∀ trec, fsGet st.fs op.file_path = some trec →
          trec.mtime ≤ brec.mtime) →
      (rollback st rreq).2.success = true ∧
      (rollback st rreq).2.restored_from_backup = some b.backup_path ∧
      fsGet (rollback st rreq).1.fs op.file_path =
        some { content := brec.content, mtime := brec.mtime }) := by
  refine ⟨?_, ?_, ?_, ?_⟩
  · intro hf
    simp [rollback, hf]
  · intro op hf hb
    simp [rollback, hf, hb]
  · intro op b brec trec hf hb hbk htg hforce hmt
    have hres : restore_backup st.fs b.backup_path op.file_path rreq.force =
        .error "Target file has been modified since backup. Use force=True to override." := by
      unfold restore_backup
      rw [hbk, hforce, htg]
      simp [hmt]
    simp [rollback, hf, hb, hres]
  · intro op b brec hf hb hbk hok
    have hres : restore_backup st.fs b.backup_path op.file_path rreq.force =
        .ok (fsSet st.fs op.file_path
          { content := brec.content, mtime := brec.mtime }) := by
      unfold restore_backup
      rw [hbk]
      rcases hok with hforce | hle
      · rw [hforce]
        rfl
      · cases hforce : rreq.force with
        | true => rfl
        | false =>
          cases htg : fsGet st.fs op.file_path with
          | none => rfl
          | some trec =>
            have := hle trec htg
            simp [Nat.not_lt_of_le this]
    simp [rollback, hf, hb, hres, fsGet_fsSet_self]

/-- C7 witness: forcing the rollback of `op9` over a newer target restores
the backup content. -/
theorem rollback_semantics_witness :
    (rollback stRoll { operation_id := "op9", force := true }).2.success =
      true ∧
    (rollback stRoll
      { operation_id := "op9", force := true }).2.restored_from_backup =
      some "b.bak" ∧
    fsGet (rollback stRoll { operation_id := "op9", force := true }).1.fs
      "f.py" = some { content := "old".data, mtime := 5 } := by
  have h := (rollback_semantics stRoll
    { operation_id := "op9", force := true }).2.2.2 opNine binfoNine
    { content := "old".data, mtime := 5 } rfl rfl rfl (Or.inl rfl)
  exact ⟨h.1, h.2.1, h.2.2⟩

/-- C1 (code bug): after a backup is taken, a strategy failure triggers a
restore attempt with the default `force=False`; if the failing strategy
already modified the file (the typical reason a rollback is needed), the
target's mtime is newer than the backup's, so `restore_backup` raises
instead of restoring: the corrupted content survives the call and the
restore error replaces the injected one.  When the failing strategy never
touched the file, the restore does run and the pre-call content (and hence
checksum) is in place with the original error surfaced. -/
theorem rollback_on_failure_not_restored :
    ((edit_file cfgBackup reqLine1 corruptStrat "op1" stOrig).2.success =
        false ∧
      (edit_file cfgBackup reqLine1 corruptStrat "op1" stOrig).2.error =
        some "Target file has been modified since backup. Use force=True to override." ∧
      fsGet (edit_file cfgBackup reqLine1 corruptStrat "op1" stOrig).1.fs
        "f.py" = some { content := "corrupted".data, mtime := 12 } ∧
      fsGet stOrig.fs "f.py" =
        some { content := "original".data, mtime := 5 }) ∧
    ((edit_file cfgBackup reqLine1 raiseStrat "op2" stOrig).2.error =
        some "boom" ∧
      fsGet (edit_file cfgBackup reqLine1 raiseStrat "op2" stOrig).1.fs
        "f.py" = some { content := "original".data, mtime := 5 }) :=
  ⟨⟨rfl, rfl, rfl, rfl⟩, rfl, rfl⟩

theorem lookup_filter_self_none {β : Type} (k : String)
    (l : List (String × β)) :
    List.lookup k (l.filter (fun e => e.1 != k)) = none := by
  induction l with
  | nil => rfl
  | cons e l ih =>
    by_cases hk : e.1 = k
    · rw [List.filter_cons, if_neg (by simp [hk])]
      exact ih
    · rw [List.filter_cons, if_pos (by simp [hk])]
      cases e with
      | mk a v =>
        simp only at hk
        simp [List.lookup, beq_eq_false_iff_ne.mpr (Ne.symm hk), ih]

theorem lookup_map_backup (l : List (String × OperationMetadata))
    (opId : String) (b : BackupInfo) :
    List.lookup opId (l.map (fun e => if e.1 = opId then
      (e.1, { e.2 with backup_info := some b }) else e)) =
    (List.lookup opId l).map
      (fun md => { md with backup_info := some b }) := by
  induction l with
  | nil => rfl
  | cons e l ih =>
    cases e with
    | mk a v =>
      by_cases ha : a = opId
      · subst ha
        simp only [List.map_cons, if_pos rfl]
        simp [List.lookup, ih]
      · simp only [List.map_cons, if_neg ha]
        simp [List.lookup, beq_eq_false_iff_ne.mpr (Ne.symm ha), ih]

theorem create_backup_ok (cfg : EditorConfig) (st : SvcState)
    (path opId : String) (st1 : SvcState) (binfo : BackupInfo)
    (h : create_backup cfg st path opId = .ok (st1, binfo)) :
    st1.history = st.history ∧ st1.active = st.active ∧
    st1.now = st.now + 1 := by
  simp only [create_backup] at h
  cases hg : fsGet st.fs path with
  | none =>
    rw [hg] at h
    exact absurd h (by simp)
  | some src =>
    rw [hg] at h
    simp only [Except.ok.injEq, Prod.mk.injEq] at h
    obtain ⟨h1, -⟩ := h
    rw [← h1]
    exact ⟨rfl, rfl, rfl⟩

theorem execute_edit_shape (cfg : EditorConfig) (req : EditRequest)
    (strat : Strategy) (opId : String) (st : SvcState)
    (hmono : ∀ fs n, n ≤ (strat fs n).2.1) :
    (execute_edit cfg req strat opId st).1.history = st.history ∧
    st.now ≤ (execute_edit cfg req strat opId st).1.now ∧
    ((execute_edit cfg req strat opId st).1.active = st.active ∨
      ∃ bi : BackupInfo, (execute_edit cfg req strat opId st).1.active =
        st.active.map (fun e => if e.1 = opId then
          (e.1, { e.2 with backup_info := some bi }) else e)) := by
  by_cases hb : req.options.create_backup = true ∧ cfg.backup_enabled = true
  · cases hcb : create_backup cfg st req.file_path opId with
    | error e =>
      simp [execute_edit, if_pos hb, hcb]
    | ok pr =>
      obtain ⟨st1, binfo⟩ := pr
      obtain ⟨hh, ha, hn⟩ := create_backup_ok cfg st _ _ _ _ hcb
      simp only [execute_edit, if_pos hb, hcb]
      rcases hstrat : strat st1.fs st1.now with ⟨fs2, rest⟩
      obtain ⟨now2, outcome⟩ := rest
      have hnow2 : st1.now ≤ now2 := by
        have h := hmono st1.fs st1.now
        rw [hstrat] at h
        exact h
      cases outcome with
      | ok r =>
        dsimp only
        refine ⟨hh, by omega, Or.inr ⟨binfo, ?_⟩⟩
        rw [ha]
      | timeout =>
        dsimp only
        cases hres : restore_backup fs2 binfo.backup_path req.file_path
            false with
        | error e =>
          simp only [hres]
          refine ⟨hh, by omega, Or.inr ⟨binfo, ?_⟩⟩
          rw [ha]
        | ok fs3 =>
          simp only [hres]
          refine ⟨hh, by omega, Or.inr ⟨binfo, ?_⟩⟩
          rw [ha]
      | exn m =>
        dsimp only
        cases hres : restore_backup fs2 binfo.backup_path req.file_path
            false with
        | error e =>
          simp only [hres]
          refine ⟨hh, by omega, Or.inr ⟨binfo, ?_⟩⟩
          rw [ha]
        | ok fs3 =>
          simp only [hres]
          refine ⟨hh, by omega, Or.inr ⟨binfo, ?_⟩⟩
          rw [ha]
  · simp only [execute_edit, if_neg hb]
    rcases hstrat : strat st.fs st.now with ⟨fs2, rest⟩
    obtain ⟨now2, outcome⟩ := rest
    have hnow2 : st.now ≤ now2 := by
      have h := hmono st.fs st.now
      rw [hstrat] at h
      exact h
    cases outcome with
    | ok r =>
      dsimp only
      exact ⟨rfl, hnow2, Or.inl rfl⟩
    | timeout =>
      dsimp only
      exact ⟨rfl, hnow2, Or.inl rfl⟩
    | exn m =>
      dsimp only
      exact ⟨rfl, hnow2, Or.inl rfl⟩

theorem edit_file_step_shape (cfg : EditorConfig) (req : EditRequest)
    (strat : Strategy) (opId : String) (st2 : SvcState)
    (hmono : ∀ fs n, n ≤ (strat fs n).2.1) :
    (edit_file_step cfg req strat opId st2).1.history = st2.history ∧
    st2.now ≤ (edit_file_step cfg req strat opId st2).1.now ∧
    ((edit_file_step cfg req strat opId st2).1.active = st2.active ∨
      ∃ bi : BackupInfo, (edit_file_step cfg req strat opId st2).1.active =
        st2.active.map (fun e => if e.1 = opId then
          (e.1, { e.2 with backup_info := some bi }) else e)) := by
  unfold edit_file_step
  cases hv : validate_request cfg st2.fs req with
  | some e => exact ⟨rfl, le_refl _, Or.inl rfl⟩
  | none =>
    cases hs : get_strategy req.operation_type with
    | error e => exact ⟨rfl, le_refl _, Or.inl rfl⟩
    | ok sid => exact execute_edit_shape cfg req strat opId st2 hmono

theorem execute_edit_backup_disabled (cfg : EditorConfig)
    (req : EditRequest) (strat : Strategy) (opId : String) (st : SvcState)
    (hcfg : cfg.backup_enabled = false) :
    (execute_edit cfg req strat opId st).1.active = st.active ∧
    (execute_edit cfg req strat opId st).1.history = st.history ∧
    (∀ r, (execute_edit cfg req strat opId st).2 = .ok r →
      r.backup_path = none) := by
  have hcond : ¬ (req.options.create_backup = true ∧
      cfg.backup_enabled = true) := by
    simp [hcfg]
  simp only [execute_edit, if_neg hcond]
  rcases hstrat : strat st.fs st.now with ⟨fs2, rest⟩
  obtain ⟨now2, outcome⟩ := rest
  cases outcome with
  | ok r =>
    dsimp only
    refine ⟨rfl, rfl, ?_⟩
    intro r' hr'
    simp only [Except.ok.injEq] at hr'
    rw [← hr']
    rfl
  | timeout =>
    dsimp only
    exact ⟨rfl, rfl, fun r hr => absurd hr (by simp)⟩
  | exn m =>
    dsimp only
    exact ⟨rfl, rfl, fun r hr => absurd hr (by simp)⟩

theorem edit_file_step_backup_disabled (cfg : EditorConfig)
    (req : EditRequest) (strat : Strategy) (opId : String) (st2 : SvcState)
    (hcfg : cfg.backup_enabled = false) :
    (edit_file_step cfg req strat opId st2).1.active = st2.active ∧
    (edit_file_step cfg req strat opId st2).1.history = st2.history ∧
    (∀ r, (edit_file_step cfg req strat opId st2).2 = .ok r →
      r.backup_path = none) := by
  unfold edit_file_step
  cases hv : validate_request cfg st2.fs req with
  | some e => exact ⟨rfl, rfl, fun r hr => absurd hr (by simp)⟩
  | none =>
    cases hs : get_strategy req.operation_type with
    | error e => exact ⟨rfl, rfl, fun r hr => absurd hr (by simp)⟩
    | ok sid => exact execute_edit_backup_disabled cfg req strat opId st2 hcfg

theorem edit_file_fst (cfg : EditorConfig) (req : EditRequest)
    (strat : Strategy) (opId : String) (st : SvcState) :
    (edit_file cfg req strat opId st).1 =
      finishState opId (startMeta req opId st)
        ((edit_file_step cfg req strat opId (startState req opId st)).1) :=
  rfl

theorem edit_file_snd (cfg : EditorConfig) (req : EditRequest)
    (strat : Strategy) (opId : String) (st : SvcState) :
    (edit_file cfg req strat opId st).2 =
      (match (edit_file_step cfg req strat opId (startState req opId st)).2
        with
       | .ok r => r
       | .error e =>
         { success := false, operation_id := opId,
           file_path := req.file_path,
           operation_type := req.operation_type, error := some e }) :=
  rfl

/-- C9: after every `edit_file` call (success or failure), exactly one
history entry carries the call's fresh operation id, its `completed_at` is
set and strictly later than its `started_at`, and the id is gone from the
active set.  The strategy is only assumed not to turn the clock back. -/
theorem edit_file_history_invariant (cfg : EditorConfig)
    (req : EditRequest) (strat : Strategy) (opId : String) (st : SvcState)
    (hfresh : ∀ md ∈ st.history, md.operation_id ≠ opId)
    (hmono : ∀ fs n, n ≤ (strat fs n).2.1) :
    ((edit_file cfg req strat opId st).1.history.filter
      (fun md => md.operation_id == opId)).length = 1 ∧
    (∃ md, (edit_file cfg req strat opId st).1.history =
        st.history ++ [md] ∧
      md.operation_id = opId ∧
      ∃ tc, md.completed_at = some tc ∧ md.started_at < tc) ∧
    List.lookup opId (edit_file cfg req strat opId st).1.active = none := by
  obtain ⟨hh, hnow, hact⟩ :=
    edit_file_step_shape cfg req strat opId (startState req opId st) hmono
  set stF := (edit_file_step cfg req strat opId (startState req opId st)).1
    with hstF
  have hlk : ∃ md', List.lookup opId stF.active = some md' ∧
      md'.operation_id = opId ∧ md'.started_at = st.now := by
    rcases hact with hsame | ⟨bi, hmap⟩
    · refine ⟨startMeta req opId st, ?_, rfl, rfl⟩
      rw [hsame]
      simp [startState, List.lookup]
    · refine ⟨{ startMeta req opId st with backup_info := some bi },
        ?_, rfl, rfl⟩
      rw [hmap]
      show List.lookup opId
        (((opId, startMeta req opId st) :: st.active).map _) = _
      rw [lookup_map_backup]
      simp [List.lookup]
  obtain ⟨md', hlkeq, hid, hstart⟩ := hlk
  have hhist : (edit_file cfg req strat opId st).1.history =
      st.history ++ [{ md' with completed_at := some stF.now }] := by
    rw [edit_file_fst]
    simp only [finishState, ← hstF, hlkeq, Option.getD_some]
    rw [hh]
    rfl
  refine ⟨?_, ?_, ?_⟩
  · rw [hhist, List.filter_append]
    have h1 : st.history.filter (fun md => md.operation_id == opId) = [] :=
      List.filter_eq_nil_iff.mpr (fun md hmd => by simp [hfresh md hmd])
    rw [h1]
    simp [hid]
  · refine ⟨_, hhist, hid, stF.now, rfl, ?_⟩
    have h2 : st.now + 1 ≤ stF.now := hnow
    simp only [hstart]
    omega
  · rw [edit_file_fst]
    simp only [finishState, ← hstF]
    exact lookup_filter_self_none opId _

/-- C9 witness: a successful no-op strategy on `stOrig`. -/
theorem edit_file_history_invariant_witness :
    ((edit_file {} reqLine1 okStrat "op1" stOrig).1.history.filter
      (fun md => md.operation_id == "op1")).length = 1 ∧
    (∃ md, (edit_file {} reqLine1 okStrat "op1" stOrig).1.history =
        stOrig.history ++ [md] ∧
      md.operation_id = "op1" ∧
      ∃ tc, md.completed_at = some tc ∧ md.started_at < tc) ∧
    List.lookup "op1" (edit_file {} reqLine1 okStrat "op1" stOrig).1.active =
      none :=
  edit_file_history_invariant {} reqLine1 okStrat "op1" stOrig
    (by intro md hmd; simp [stOrig] at hmd)
    (by intro fs n; exact le_refl n)

/-- C10: with `backup_enabled = false` (the default), no `edit_file`
operation records `backup_info` in its history entry or a `backup_path` in
its result — even when the request asks for a backup — and a later
rollback of the operation fails with "No backup available". -/
theorem backup_disabled_no_backup (cfg : EditorConfig) (req : EditRequest)
    (strat : Strategy) (opId : String) (st : SvcState)
    (hcfg : cfg.backup_enabled = false)
    (hfresh : ∀ md ∈ st.history, md.operation_id ≠ opId) :
    (edit_file cfg req strat opId st).2.backup_path = none ∧
    (∀ md ∈ (edit_file cfg req strat opId st).1.history,
      md.operation_id = opId → md.backup_info = none) ∧
    (rollback (edit_file cfg req strat opId st).1
      { operation_id := opId }).2.success = false ∧
    (rollback (edit_file cfg req strat opId st).1
      { operation_id := opId }).2.error =
      some "No backup available for this operation" := by
  obtain ⟨hact, hh, hok⟩ := edit_file_step_backup_disabled cfg req strat
    opId (startState req opId st) hcfg
  set stF := (edit_file_step cfg req strat opId (startState req opId st)).1
    with hstF
  have hlkeq : List.lookup opId stF.active = some (startMeta req opId st) := by
    rw [hact]
    simp [startState, List.lookup]
  have hhist : (edit_file cfg req strat opId st).1.history =
      st.history ++
        [{ startMeta req opId st with completed_at := some stF.now }] := by
    rw [edit_file_fst]
    simp only [finishState, ← hstF, hlkeq, Option.getD_some]
    rw [hh]
    rfl
  have hbp : (edit_file cfg req strat opId st).2.backup_path = none := by
    rw [edit_file_snd]
    cases hstep : (edit_file_step cfg req strat opId
        (startState req opId st)).2 with
    | ok r => exact hok r hstep
    | error e => rfl
  have hmds : ∀ md ∈ (edit_file cfg req strat opId st).1.history,
      md.operation_id = opId → md.backup_info = none := by
    intro md hmd hid
    rw [hhist] at hmd
    rcases List.mem_append.mp hmd with hold | hnew
    · exact absurd hid (hfresh md hold)
    · rw [List.mem_singleton] at hnew
      rw [hnew]
      rfl
  have hfind : (edit_file cfg req strat opId st).1.history.find?
      (fun op => op.operation_id == opId) =
      some { startMeta req opId st with completed_at := some stF.now } := by
    rw [hhist, List.find?_append]
    have h1 : st.history.find? (fun op => op.operation_id == opId) = none :=
      List.find?_eq_none.mpr (fun md hmd => by simp [hfresh md hmd])
    rw [h1, Option.none_or]
    simp [List.find?, startMeta]
  refine ⟨hbp, hmds, ?_, ?_⟩
  · simp [rollback, hfind]
    rfl
  · simp [rollback, hfind]
    rfl

/-- C10 witness: the default config on `stOrig` with a request that asks
for a backup (`reqLine1` keeps the default `create_backup = true`). -/
theorem backup_disabled_no_backup_witness :
    (edit_file {} reqLine1 okStrat "op4" stOrig).2.backup_path = none ∧
    (∀ md ∈ (edit_file {} reqLine1 okStrat "op4" stOrig).1.history,
      md.operation_id = "op4" → md.backup_info = none) ∧
    (rollback (edit_file {} reqLine1 okStrat "op4" stOrig).1
      { operation_id := "op4" }).2.success = false ∧
    (rollback (edit_file {} reqLine1 okStrat "op4" stOrig).1
      { operation_id := "op4" }).2.error =
      some "No backup available for this operation" :=
  backup_disabled_no_backup {} reqLine1 okStrat "op4" stOrig rfl
    (by intro md hmd; simp [stOrig] at hmd)

end HealCode
